import Mathlib

/-!
Verification of the crawl orchestration and resumable state engine of the
crawler_with_snapshot repository, as a shallow embedding in Lean 4.

Sources embedded here:
  - src/crawler/crawler.py : crawl_single_page, crawl_bfs, retry_errors
  - src/crawler/utils.py   : restore_state_from_csv
  - src/main.py            : get_urls_to_resume
  - src/crawler/domain/replacer.py : replace_domain,
    check_redirect_chain_domain, handle_redirects, update_csv_row,
    crawl_with_domain_replacement

External collaborators (Playwright page renderer, BeautifulSoup content
extractor, the clock, the MD5 hash) are modelled as explicit parameters:
the page renderer as a record of outcomes of its calls, the extractor and
the hash as function arguments.  Python dicts are modelled as ordered
association lists with insert-or-replace-in-place semantics, which is
exactly the observable behaviour (insertion order preserved, update keeps
the original position).
-/

/-- The status_code cell of a result row: the string sentinel "ERROR" or an
HTTP status integer, as stored by crawl_single_page. -/
inductive Status where
  | error : Status
  | code : Nat → Status
deriving DecidableEq, Repr

/-- One result row of result.csv, with the fields of CSV_FIELDS in
src/crawler/crawler.py (depth and the numeric cells typed). -/
structure Row where
  url : String
  redirect_chain : String
  from_url : String
  case_id : String
  depth : Nat
  title : String
  status_code : Status
  content_length : Nat
  link_count : Nat
  crawled_at : String
  error_message : String
  anchor_html : String
deriving DecidableEq, Repr

/-- A frontier entry: the (url, from_url, anchor_html) tuples queued by
crawl_bfs in src/crawler/crawler.py. -/
structure Entry where
  url : String
  from_url : String
  anchor_html : String
deriving DecidableEq, Repr

/-- Abstraction of one crawl step (crawl_single_page applied to a fixed
page and output directory): from (url, depth, from_url, anchor_html) to
the result row and the discovered link map (url to anchor html, in
discovery order). -/
def Fetch : Type := String → Nat → String → String → Row × List (String × String)

/-- Python dict assignment d[k] = v on an ordered association list: if the
key is present its value is replaced in place, otherwise the pair is
appended.  Models rows_by_url[url] = row in crawl_bfs and retry_errors. -/
def dictInsert : List (String × Row) → String → Row → List (String × Row)
  | [], k, v => [(k, v)]
  | kv :: rest, k, v =>
      if kv.1 = k then (k, v) :: rest else kv :: dictInsert rest k v

/-- The enqueue guard of crawl_bfs (src/crawler/crawler.py lines 212-215
and 239-242): append to the queue and to queued only when the url is in
neither visited nor queued.  Returns the new queue and new queued set. -/
def enqueue (visited queued : List String) (q : List Entry) (e : Entry) :
    List Entry × List String :=
  if e.url ∈ visited ∨ e.url ∈ queued then (q, queued)
  else (q ++ [e], queued ++ [e.url])

/-- The mutable state threaded through crawl_bfs: the visited and queued
sets, the rows_by_url dict, and (for specification purposes) the ordered
trace of (depth, url) pairs dequeued and fetched. -/
structure BfsState where
  visited : List String
  queued : List String
  store : List (String × Row)
  trace : List (Nat × String)
deriving Repr

/-- The body of the inner while loop of crawl_bfs at depth d for one
dequeued entry: mark visited, fetch, upsert the row into rows_by_url,
then enqueue every discovered link at depth d+1 under the enqueue guard.
next is the queue for depth d+1 being accumulated. -/
def processEntry (fetch : Fetch) (d : Nat) (e : Entry) (st : BfsState)
    (next : List Entry) : BfsState × List Entry :=
  let st1 : BfsState :=
    { st with visited := st.visited ++ [e.url],
              trace := st.trace ++ [(d, e.url)] }
  let fr := fetch e.url d e.from_url e.anchor_html
  let st2 : BfsState := { st1 with store := dictInsert st1.store e.url fr.1 }
  let acc := fr.2.foldl
    (fun (acc : List Entry × List String) l =>
      enqueue st2.visited acc.2 acc.1 ⟨l.1, e.url, l.2⟩)
    (next, st2.queued)
  ({ st2 with queued := acc.2 }, acc.1)

/-- Drain queue[d] in FIFO order: nothing is ever appended to queue[d]
while it is drained; discovered links accumulate in the queue for d+1. -/
def processDepth (fetch : Fetch) (d : Nat) :
    List Entry → BfsState → List Entry → BfsState × List Entry
  | [], st, next => (st, next)
  | e :: rest, st, next =>
      let r := processEntry fetch d e st next
      processDepth fetch d rest r.1 r.2

/-- The depth loop for depth in range(start_depth, MAX_DEPTH + 1) of
crawl_bfs, with the remaining number of depth iterations as fuel. -/
def bfsLoop (fetch : Fetch) : Nat → Nat → List Entry → BfsState → BfsState
  | 0, _, _, st => st
  | fuel + 1, d, q, st =>
      let r := processDepth fetch d q st []
      bfsLoop fetch fuel (d + 1) r.2 r.1

/-- Reading the existing result.csv into rows_by_url (crawl_bfs lines
219-224): rows with a falsy url are skipped, later duplicates overwrite
earlier ones in place. -/
def initStore (csvRows : List Row) : List (String × Row) :=
  csvRows.foldl (fun s r => if r.url = "" then s else dictInsert s r.url r) []

/-- Seeding queue[start_depth] from start_urls under the enqueue guard
(crawl_bfs lines 212-215); visited is fixed, queued grows. -/
def seedQueue (visited queued : List String) (startUrls : List Entry) :
    List Entry × List String :=
  startUrls.foldl (fun acc e => enqueue visited acc.2 acc.1 e) ([], queued)

/-- crawl_bfs of src/crawler/crawler.py: seed the frontier, run the depth
loop from start_depth to maxDepth, and return the final state; the final
store written by write_csv is the list of dict values of the store. -/
def crawl_bfs (fetch : Fetch) (visited0 queued0 : List String)
    (csvRows : List Row) (startUrls : List Entry)
    (startDepth maxDepth : Nat) : BfsState :=
  let seeded := seedQueue visited0 queued0 startUrls
  bfsLoop fetch (maxDepth + 1 - startDepth) startDepth seeded.1
    ⟨visited0, seeded.2, initStore csvRows, []⟩

/-- The arguments retry_errors passes to crawl_single_page for one stored
error row: its url, depth, from_url and anchor_html. -/
def retryFetchArgs (r : Row) : String × Nat × String × String :=
  (r.url, r.depth, r.from_url, r.anchor_html)

/-- retry_errors of src/crawler/crawler.py: build rows_by_url from the
stored rows, re-run the crawl step for exactly the rows whose status_code
is the ERROR sentinel (discarding the returned link map), overwrite each
result in the dict under the fetched url, and return the dict values
together with the trace of crawl step invocations. -/
def retry_errors (fetch : Fetch) (rows : List Row) :
    List Row × List (String × Nat × String × String) :=
  let dict0 := rows.foldl
    (fun s r => if r.url = "" then s else dictInsert s r.url r) []
  let errorRows := rows.filter (fun r => r.status_code = Status.error)
  let dict1 := errorRows.foldl
    (fun s r => dictInsert s r.url (fetch r.url r.depth r.from_url r.anchor_html).1)
    dict0
  (dict1.map Prod.snd, errorRows.map retryFetchArgs)

/-! ### Store well-formedness: the rows_by_url dict never holds two rows
for one url, and each value's url field equals its key. -/

/-- Well-formedness of the rows_by_url dict: keys are pairwise distinct
and every value carries its key as its url field. -/
def StoreWF (s : List (String × Row)) : Prop :=
  (s.map Prod.fst).Nodup ∧ ∀ kv ∈ s, (kv.2).url = kv.1

lemma dictInsert_mem {s : List (String × Row)} {k : String} {v : Row}
    {kv : String × Row} (h : kv ∈ dictInsert s k v) :
    kv = (k, v) ∨ kv ∈ s := by
  induction s with
  | nil => simpa [dictInsert] using h
  | cons kv0 rest ih =>
      by_cases h0 : kv0.1 = k
      · simp [dictInsert, h0] at h
        rcases h with h | h
        · exact Or.inl h
        · exact Or.inr (by simp [h])
      · simp [dictInsert, h0] at h
        rcases h with h | h
        · exact Or.inr (by simp [h])
        · rcases ih h with h | h
          · exact Or.inl h
          · exact Or.inr (by simp [h])

lemma dictInsert_mem_keys {s : List (String × Row)} {k : String} {v : Row}
    {x : String} (hx : x ∈ (dictInsert s k v).map Prod.fst) :
    x = k ∨ x ∈ s.map Prod.fst := by
  rcases List.mem_map.1 hx with ⟨kv, hkv, hfst⟩
  rcases dictInsert_mem hkv with h | h
  · left; rw [← hfst, h]
  · right; exact List.mem_map.2 ⟨kv, h, hfst⟩

lemma StoreWF_dictInsert {s : List (String × Row)} {k : String} {v : Row}
    (h : StoreWF s) (hv : v.url = k) : StoreWF (dictInsert s k v) := by
  obtain ⟨hnd, hurl⟩ := h
  constructor
  · induction s with
    | nil => simp [dictInsert]
    | cons kv rest ih =>
        by_cases h0 : kv.1 = k
        · simp only [List.map_cons, List.nodup_cons] at hnd
          simp only [dictInsert, h0, if_pos]
          simp only [List.map_cons, List.nodup_cons]
          exact ⟨h0 ▸ hnd.1, hnd.2⟩
        · simp only [List.map_cons, List.nodup_cons] at hnd
          simp only [dictInsert, h0, if_neg, ite_false]
          simp only [List.map_cons, List.nodup_cons]
          refine ⟨fun hmem => ?_, ih hnd.2 (fun kv hkv => hurl kv (by simp [hkv]))⟩
          rcases dictInsert_mem_keys hmem with h1 | h1
          · exact h0 h1
          · exact hnd.1 h1
  · intro kv hkv
    rcases dictInsert_mem hkv with h1 | h1
    · subst h1; exact hv
    · exact hurl kv h1

lemma StoreWF_initFold : ∀ (rows : List Row) (s : List (String × Row)),
    StoreWF s →
    StoreWF (rows.foldl
      (fun s r => if r.url = "" then s else dictInsert s r.url r) s) := by
  intro rows
  induction rows with
  | nil => intro s hs; simpa using hs
  | cons r rest ih =>
      intro s hs
      simp only [List.foldl_cons]
      by_cases h : r.url = ""
      · simpa [h] using ih s hs
      · simpa [h] using ih (dictInsert s r.url r) (StoreWF_dictInsert hs rfl)

lemma StoreWF_initStore (csvRows : List Row) : StoreWF (initStore csvRows) :=
  StoreWF_initFold csvRows [] ⟨List.nodup_nil, by simp⟩

lemma processEntry_store (fetch : Fetch) (d : Nat) (e : Entry)
    (st : BfsState) (next : List Entry) :
    (processEntry fetch d e st next).1.store =
      dictInsert st.store e.url (fetch e.url d e.from_url e.anchor_html).1 := rfl

lemma processEntry_trace (fetch : Fetch) (d : Nat) (e : Entry)
    (st : BfsState) (next : List Entry) :
    (processEntry fetch d e st next).1.trace = st.trace ++ [(d, e.url)] := rfl

lemma StoreWF_processDepth (fetch : Fetch)
    (hfetch : ∀ u d f a, ((fetch u d f a).1).url = u) (d : Nat) :
    ∀ (entries : List Entry) (st : BfsState) (next : List Entry),
    StoreWF st.store → StoreWF (processDepth fetch d entries st next).1.store := by
  intro entries
  induction entries with
  | nil => intro st next hs; simpa [processDepth] using hs
  | cons e rest ih =>
      intro st next hs
      simp only [processDepth]
      exact ih _ _ (by
        rw [processEntry_store]
        exact StoreWF_dictInsert hs (hfetch _ _ _ _))

lemma StoreWF_bfsLoop (fetch : Fetch)
    (hfetch : ∀ u d f a, ((fetch u d f a).1).url = u) :
    ∀ (fuel d : Nat) (q : List Entry) (st : BfsState),
    StoreWF st.store → StoreWF (bfsLoop fetch fuel d q st).store := by
  intro fuel
  induction fuel with
  | zero => intro d q st hs; simpa [bfsLoop] using hs
  | succ fuel ih =>
      intro d q st hs
      simp only [bfsLoop]
      exact ih _ _ _ (StoreWF_processDepth fetch hfetch d q st [] hs)

lemma StoreWF_retryFold (fetch : Fetch)
    (hfetch : ∀ u d f a, ((fetch u d f a).1).url = u) :
    ∀ (ers : List Row) (s : List (String × Row)), StoreWF s →
    StoreWF (ers.foldl
      (fun s r =>
        dictInsert s r.url (fetch r.url r.depth r.from_url r.anchor_html).1)
      s) := by
  intro ers
  induction ers with
  | nil => intro s hs; simpa using hs
  | cons e rest ih =>
      intro s hs
      simp only [List.foldl_cons]
      exact ih _ (StoreWF_dictInsert hs (hfetch _ _ _ _))

lemma StoreWF_urls_eq {s : List (String × Row)}
    (h : ∀ kv ∈ s, (kv.2).url = kv.1) :
    s.map (fun kv => (kv.2).url) = s.map Prod.fst :=
  List.map_congr_left h

/-- C1: in each of crawl_bfs and retry_errors the row store is a
url-keyed dict, so the final row list holds at most one row per url:
writes for an existing url replace the old row in place and never create
a duplicate.  The hypothesis records that crawl_single_page always
returns a row whose url field is the url it was asked to crawl. -/
theorem C1_store_urls_nodup (fetch : Fetch)
    (hfetch : ∀ u d f a, ((fetch u d f a).1).url = u)
    (visited0 queued0 : List String) (csvRows : List Row)
    (startUrls : List Entry) (startDepth maxDepth : Nat) (rows : List Row) :
    ((crawl_bfs fetch visited0 queued0 csvRows startUrls startDepth
        maxDepth).store.map (fun kv => (kv.2).url)).Nodup ∧
    ((retry_errors fetch rows).1.map Row.url).Nodup := by
  constructor
  · have hwf : StoreWF (crawl_bfs fetch visited0 queued0 csvRows startUrls
        startDepth maxDepth).store := by
      unfold crawl_bfs
      exact StoreWF_bfsLoop fetch hfetch _ _ _ _ (StoreWF_initStore csvRows)
    rw [StoreWF_urls_eq hwf.2]
    exact hwf.1
  · have h0 : StoreWF (rows.foldl
        (fun s r => if r.url = "" then s else dictInsert s r.url r) []) :=
      StoreWF_initFold rows [] ⟨List.nodup_nil, by simp⟩
    have hwf : StoreWF ((rows.filter (fun r => r.status_code = Status.error)).foldl
        (fun s r =>
          dictInsert s r.url (fetch r.url r.depth r.from_url r.anchor_html).1)
        (rows.foldl
          (fun s r => if r.url = "" then s else dictInsert s r.url r) [])) :=
      StoreWF_retryFold fetch hfetch _ _ h0
    have : (retry_errors fetch rows).1.map Row.url =
        ((rows.filter (fun r => r.status_code = Status.error)).foldl
          (fun s r =>
            dictInsert s r.url (fetch r.url r.depth r.from_url r.anchor_html).1)
          (rows.foldl
            (fun s r => if r.url = "" then s else dictInsert s r.url r) [])).map
          (fun kv => (kv.2).url) := by
      simp [retry_errors, List.map_map]
    rw [this, StoreWF_urls_eq hwf.2]
    exact hwf.1

/-! ### Depth bounds (C2) -/

lemma initFold_value_pred (P : Row → Prop) :
    ∀ (rows : List Row) (s : List (String × Row)),
    (∀ kv ∈ s, P kv.2) → (∀ r ∈ rows, P r) →
    ∀ kv ∈ rows.foldl
      (fun s r => if r.url = "" then s else dictInsert s r.url r) s, P kv.2 := by
  intro rows
  induction rows with
  | nil => intro s hs _ kv hkv; exact hs kv (by simpa using hkv)
  | cons r rest ih =>
      intro s hs hrows kv hkv
      simp only [List.foldl_cons] at hkv
      by_cases h : r.url = ""
      · rw [if_pos h] at hkv
        exact ih s hs (fun r hr => hrows r (by simp [hr])) kv hkv
      · rw [if_neg h] at hkv
        refine ih (dictInsert s r.url r) ?_ (fun r hr => hrows r (by simp [hr])) kv hkv
        intro kv hkv
        rcases dictInsert_mem hkv with h1 | h1
        · subst h1; exact hrows r (by simp)
        · exact hs kv h1

lemma processDepth_bounds (fetch : Fetch)
    (hfetchd : ∀ u d f a, ((fetch u d f a).1).depth = d)
    (N d0 d : Nat) (hdN : d ≤ N) (hd0 : d0 ≤ d) :
    ∀ (entries : List Entry) (st : BfsState) (next : List Entry),
    (∀ kv ∈ st.store, (kv.2).depth ≤ N) →
    (∀ p ∈ st.trace, d0 ≤ p.1 ∧ p.1 ≤ N) →
    (∀ kv ∈ (processDepth fetch d entries st next).1.store, (kv.2).depth ≤ N) ∧
    (∀ p ∈ (processDepth fetch d entries st next).1.trace, d0 ≤ p.1 ∧ p.1 ≤ N) := by
  intro entries
  induction entries with
  | nil => intro st next hs ht; exact ⟨hs, ht⟩
  | cons e rest ih =>
      intro st next hs ht
      simp only [processDepth]
      apply ih
      · intro kv hkv
        rw [processEntry_store] at hkv
        rcases dictInsert_mem hkv with h1 | h1
        · subst h1
          simpa [hfetchd] using hdN
        · exact hs kv h1
      · intro p hp
        rw [processEntry_trace] at hp
        rcases List.mem_append.1 hp with h1 | h1
        · exact ht p h1
        · simp at h1
          subst h1
          exact ⟨hd0, hdN⟩

lemma bfsLoop_bounds (fetch : Fetch)
    (hfetchd : ∀ u d f a, ((fetch u d f a).1).depth = d) (N d0 : Nat) :
    ∀ (fuel d : Nat) (q : List Entry) (st : BfsState),
    d + fuel ≤ N + 1 → d0 ≤ d →
    (∀ kv ∈ st.store, (kv.2).depth ≤ N) →
    (∀ p ∈ st.trace, d0 ≤ p.1 ∧ p.1 ≤ N) →
    (∀ kv ∈ (bfsLoop fetch fuel d q st).store, (kv.2).depth ≤ N) ∧
    (∀ p ∈ (bfsLoop fetch fuel d q st).trace, d0 ≤ p.1 ∧ p.1 ≤ N) := by
  intro fuel
  induction fuel with
  | zero => intro d q st _ _ hs ht; exact ⟨hs, ht⟩
  | succ fuel ih =>
      intro d q st hfuel hd0 hs ht
      simp only [bfsLoop]
      have hdN : d ≤ N := by omega
      have h1 := processDepth_bounds fetch hfetchd N d0 d hdN hd0 q st [] hs ht
      exact ih (d + 1) _ _ (by omega) (by omega) h1.1 h1.2

/-- C2: in a BFS run with maximum depth N, start depth at most N and every
pre-existing row at depth at most N, no row of the final store has depth
greater than N, and every fetch happens at a depth between the start depth
and N: discovery from depth d enqueues at depth d+1 only, so the loop
terminates within the depth range.  The hypothesis hfetchd records that
crawl_single_page stamps the row with the depth it was called at. -/
theorem C2_depth_bounded (fetch : Fetch)
    (hfetchd : ∀ u d f a, ((fetch u d f a).1).depth = d)
    (visited0 queued0 : List String) (csvRows : List Row)
    (startUrls : List Entry) (startDepth N : Nat)
    (hstart : startDepth ≤ N) (hcsv : ∀ r ∈ csvRows, r.depth ≤ N) :
    (∀ kv ∈ (crawl_bfs fetch visited0 queued0 csvRows startUrls startDepth
        N).store, (kv.2).depth ≤ N) ∧
    (∀ p ∈ (crawl_bfs fetch visited0 queued0 csvRows startUrls startDepth
        N).trace, startDepth ≤ p.1 ∧ p.1 ≤ N) := by
  unfold crawl_bfs
  apply bfsLoop_bounds fetch hfetchd N startDepth
  · omega
  · exact le_refl _
  · exact initFold_value_pred (fun r => r.depth ≤ N) csvRows [] (by simp) hcsv
  · simp

/-! ### Frontier ordering (C3) -/

lemma processDepth_trace (fetch : Fetch) (d : Nat) :
    ∀ (entries : List Entry) (st : BfsState) (next : List Entry),
    ((processDepth fetch d entries st next).1).trace =
      st.trace ++ entries.map (fun e => (d, e.url)) := by
  intro entries
  induction entries with
  | nil => intro st next; simp [processDepth]
  | cons e rest ih =>
      intro st next
      simp only [processDepth, List.map_cons]
      rw [ih, processEntry_trace, List.append_assoc]
      rfl

lemma sorted_replicate (n d : Nat) :
    ((List.replicate n d).Sorted (fun a b => a ≤ b)) := by
  induction n with
  | zero => simp
  | succ n ih =>
      rw [List.replicate_succ]
      rw [List.sorted_cons]
      refine ⟨fun b hb => ?_, ih⟩
      rw [List.eq_of_mem_replicate hb]

lemma map_fst_depth (d : Nat) : ∀ (q : List Entry),
    List.map Prod.fst (List.map (fun e => (d, e.url)) q) =
      List.replicate q.length d := by
  intro q
  induction q with
  | nil => rfl
  | cons e rest ih => simp [List.replicate_succ, ih]

lemma bfsLoop_trace_sorted (fetch : Fetch) :
    ∀ (fuel d : Nat) (q : List Entry) (st : BfsState),
    (∀ p ∈ st.trace, p.1 ≤ d) →
    ((st.trace.map Prod.fst).Sorted (fun a b => a ≤ b)) →
    (((bfsLoop fetch fuel d q st).trace.map Prod.fst).Sorted (fun a b => a ≤ b)) := by
  intro fuel
  induction fuel with
  | zero => intro d q st _ hsorted; exact hsorted
  | succ fuel ih =>
      intro d q st hbound hsorted
      simp only [bfsLoop]
      apply ih (d + 1)
      · intro p hp
        rw [processDepth_trace] at hp
        rcases List.mem_append.1 hp with h1 | h1
        · exact Nat.le_succ_of_le (hbound p h1)
        · rcases List.mem_map.1 h1 with ⟨e, _, he⟩
          subst he
          omega
      · rw [processDepth_trace, List.map_append, map_fst_depth]
        show List.Pairwise _ _
        rw [List.pairwise_append]
        refine ⟨hsorted, sorted_replicate q.length d, ?_⟩
        intro a ha b hb
        rcases List.mem_map.1 ha with ⟨p, hp, hpa⟩
        subst hpa
        rw [List.eq_of_mem_replicate hb]
        exact hbound p hp

/-- C3: the frontier scheduler contract of crawl_bfs.  First, the enqueue
guard: enqueuing a url already in visited or queued is a no-op, otherwise
the entry is appended to the depth queue and the url added to queued.
Second, FIFO within a depth: draining queue[d] fetches exactly the queued
entries, in queue (discovery) order.  Third, strict BFS across depths: the
depth components of the fetch trace are non-decreasing, so every fetch at
depth d precedes every fetch at depth d+1. -/
theorem C3_frontier_contract (fetch : Fetch) :
    (∀ (visited queued : List String) (q : List Entry) (e : Entry),
      (e.url ∈ visited ∨ e.url ∈ queued → enqueue visited queued q e = (q, queued)) ∧
      (e.url ∉ visited → e.url ∉ queued →
        enqueue visited queued q e = (q ++ [e], queued ++ [e.url]))) ∧
    (∀ (d : Nat) (entries : List Entry) (st : BfsState) (next : List Entry),
      ((processDepth fetch d entries st next).1).trace =
        st.trace ++ entries.map (fun e => (d, e.url))) ∧
    (∀ (visited0 queued0 : List String) (csvRows : List Row)
       (startUrls : List Entry) (startDepth maxDepth : Nat),
      (((crawl_bfs fetch visited0 queued0 csvRows startUrls startDepth
          maxDepth).trace.map Prod.fst).Sorted (fun a b => a ≤ b))) := by
  refine ⟨?_, ?_, ?_⟩
  · intro visited queued q e
    constructor
    · intro h; simp [enqueue, h]
    · intro h1 h2
      have : ¬(e.url ∈ visited ∨ e.url ∈ queued) := by
        intro h; rcases h with h | h
        · exact h1 h
        · exact h2 h
      simp [enqueue, this]
  · intro d entries st next
    exact processDepth_trace fetch d entries st next
  · intro visited0 queued0 csvRows startUrls startDepth maxDepth
    unfold crawl_bfs
    apply bfsLoop_trace_sorted
    · simp
    · simp

/-! ### Retry characterization (C5) -/

lemma dictInsert_not_mem {s : List (String × Row)} {k : String} {v : Row}
    (h : k ∉ s.map Prod.fst) : dictInsert s k v = s ++ [(k, v)] := by
  induction s with
  | nil => rfl
  | cons kv rest ih =>
      simp only [List.map_cons, List.mem_cons, not_or] at h
      rw [dictInsert, if_neg (fun he => h.1 he.symm), ih h.2]
      rfl

lemma initFold_closed : ∀ (rows : List Row) (s : List (String × Row)),
    (∀ r ∈ rows, r.url ≠ "" ∧ r.url ∉ s.map Prod.fst) →
    (rows.map Row.url).Nodup →
    rows.foldl (fun s r => if r.url = "" then s else dictInsert s r.url r) s =
      s ++ rows.map (fun r => (r.url, r)) := by
  intro rows
  induction rows with
  | nil => intro s _ _; simp
  | cons r rest ih =>
      intro s h hnodup
      simp only [List.map_cons, List.nodup_cons] at hnodup
      have hr := h r (by simp)
      simp only [List.foldl_cons, if_neg hr.1, dictInsert_not_mem hr.2]
      rw [ih (s ++ [(r.url, r)]) ?_ hnodup.2]
      · simp
      · intro r2 hr2
        refine ⟨(h r2 (by simp [hr2])).1, ?_⟩
        simp only [List.map_append, List.mem_append]
        push_neg
        refine ⟨(h r2 (by simp [hr2])).2, ?_⟩
        simp only [List.map_cons, List.map_nil, List.mem_singleton]
        intro he
        exact hnodup.1 (he ▸ List.mem_map_of_mem Row.url hr2)

lemma foldl_dictInsert_cons (F : Row → Row) :
    ∀ (es : List Row) (k : String) (v : Row) (s : List (String × Row)),
    (∀ e ∈ es, e.url ≠ k) →
    es.foldl (fun s r => dictInsert s r.url (F r)) ((k, v) :: s) =
      (k, v) :: es.foldl (fun s r => dictInsert s r.url (F r)) s := by
  intro es
  induction es with
  | nil => intro k v s _; rfl
  | cons e rest ih =>
      intro k v s h
      simp only [List.foldl_cons]
      rw [show dictInsert ((k, v) :: s) e.url (F e) =
            (k, v) :: dictInsert s e.url (F e) from by
          rw [dictInsert, if_neg (fun he => h e (by simp) he.symm)]]
      exact ih k v _ (fun e2 he2 => h e2 (by simp [he2]))

lemma retryFold_closed (F : Row → Row) (p : Row → Bool) :
    ∀ (rows : List Row),
    (rows.map Row.url).Nodup →
    (rows.filter p).foldl (fun s r => dictInsert s r.url (F r))
        (rows.map (fun r => (r.url, r))) =
      rows.map (fun r => (r.url, if p r then F r else r)) := by
  intro rows
  induction rows with
  | nil => intro _; rfl
  | cons r rest ih =>
      intro hnodup
      simp only [List.map_cons, List.nodup_cons] at hnodup
      have hne : ∀ e ∈ rest.filter p, e.url ≠ r.url := by
        intro e he heq
        exact hnodup.1 (heq ▸ List.mem_map_of_mem Row.url (List.mem_of_mem_filter he))
      by_cases hp : p r
      · rw [List.filter_cons_of_pos hp]
        simp only [List.foldl_cons, List.map_cons]
        rw [show dictInsert ((r.url, r) :: rest.map (fun r => (r.url, r))) r.url
              (F r) = (r.url, F r) :: rest.map (fun r => (r.url, r)) from by
            rw [dictInsert, if_pos rfl]]
        rw [foldl_dictInsert_cons F _ _ _ _ hne, ih hnodup.2, hp]
        simp
      · rw [List.filter_cons_of_neg (by simpa using hp)]
        simp only [List.map_cons]
        rw [foldl_dictInsert_cons F _ _ _ _ hne, ih hnodup.2]
        simp [hp]

/-- C5: over a store whose rows have pairwise distinct, non-empty urls,
retry_errors re-runs the crawl step exactly for the rows whose stored
status_code is the ERROR sentinel, passing each row's stored url, depth,
from_url and anchor_html (and nothing else is ever fetched, so no link
discovered during a retry is crawled further: the link map returned by
each retry fetch is discarded by construction).  Every non-error row is
returned unchanged in its original position, each error row is replaced
in place by the fresh result, and the url column of the store is
unchanged. -/
theorem C5_retry_frame (fetch : Fetch)
    (hfetch : ∀ u d f a, ((fetch u d f a).1).url = u)
    (rows : List Row)
    (hnodup : (rows.map Row.url).Nodup)
    (hne : ∀ r ∈ rows, r.url ≠ "") :
    (retry_errors fetch rows).2 =
      (rows.filter (fun r => r.status_code = Status.error)).map retryFetchArgs ∧
    (retry_errors fetch rows).1 =
      rows.map (fun r => if r.status_code = Status.error
        then (fetch r.url r.depth r.from_url r.anchor_html).1 else r) ∧
    (∀ r ∈ rows, r.status_code ≠ Status.error → r ∈ (retry_errors fetch rows).1) ∧
    (retry_errors fetch rows).1.map Row.url = rows.map Row.url := by
  have hinit : rows.foldl
      (fun s r => if r.url = "" then s else dictInsert s r.url r) [] =
      rows.map (fun r => (r.url, r)) := by
    simpa using initFold_closed rows []
      (fun r hr => ⟨hne r hr, by simp⟩) hnodup
  have hmain : (retry_errors fetch rows).1 =
      rows.map (fun r => if r.status_code = Status.error
        then (fetch r.url r.depth r.from_url r.anchor_html).1 else r) := by
    show ((rows.filter (fun r => r.status_code = Status.error)).foldl
        (fun s r =>
          dictInsert s r.url (fetch r.url r.depth r.from_url r.anchor_html).1)
        (rows.foldl
          (fun s r => if r.url = "" then s else dictInsert s r.url r) [])).map
        Prod.snd = _
    rw [hinit,
      retryFold_closed (fun r => (fetch r.url r.depth r.from_url r.anchor_html).1)
        (fun r => r.status_code = Status.error) rows hnodup,
      List.map_map]
    apply List.map_congr_left
    intro r _
    by_cases h : r.status_code = Status.error
    · simp [h]
    · simp [h]
  refine ⟨rfl, hmain, ?_, ?_⟩
  · intro r hr hrs
    rw [hmain]
    exact List.mem_map.2 ⟨r, hr, by simp [hrs]⟩
  · rw [hmain, List.map_map]
    apply List.map_congr_left
    intro r _
    by_cases h : r.status_code = Status.error
    · simp [h, hfetch]
    · simp [h]

/-! ### Concrete instances used by the witnesses -/

/-- A concrete crawl step used as witness input: it records its arguments
in the row exactly as crawl_single_page does and reports one link. -/
def fetch0 : Fetch := fun u d f a =>
  ({ url := u, redirect_chain := "", from_url := f, case_id := u, depth := d,
     title := "", status_code := Status.code 200, content_length := 0,
     link_count := 1, crawled_at := "t", error_message := "", anchor_html := a },
   [("https://b.example/", "<a></a>")])

/-- A concrete stored error row. -/
def rowErr : Row :=
  { url := "https://a.com/x", redirect_chain := "", from_url := "",
    case_id := "c1", depth := 0, title := "", status_code := Status.error,
    content_length := 0, link_count := 0, crawled_at := "t",
    error_message := "boom", anchor_html := "" }

/-- A concrete stored success row. -/
def rowOk : Row :=
  { url := "https://a.com/y", redirect_chain := "", from_url := "",
    case_id := "c2", depth := 1, title := "ok", status_code := Status.code 200,
    content_length := 5, link_count := 0, crawled_at := "t",
    error_message := "", anchor_html := "" }

/-- Witness for C1 at concrete inputs. -/
theorem C1_store_urls_nodup_witness :
    ((crawl_bfs fetch0 [] [] [rowOk] [⟨"https://a.com/x", "", ""⟩] 0
        1).store.map (fun kv => (kv.2).url)).Nodup ∧
    ((retry_errors fetch0 [rowErr, rowOk]).1.map Row.url).Nodup :=
  C1_store_urls_nodup fetch0 (fun u d f a => rfl) [] [] [rowOk]
    [⟨"https://a.com/x", "", ""⟩] 0 1 [rowErr, rowOk]

/-- Witness for C2 at concrete inputs. -/
theorem C2_depth_bounded_witness :
    (∀ kv ∈ (crawl_bfs fetch0 [] [] [rowOk] [⟨"https://a.com/x", "", ""⟩] 0
        2).store, (kv.2).depth ≤ 2) ∧
    (∀ p ∈ (crawl_bfs fetch0 [] [] [rowOk] [⟨"https://a.com/x", "", ""⟩] 0
        2).trace, 0 ≤ p.1 ∧ p.1 ≤ 2) :=
  C2_depth_bounded fetch0 (fun u d f a => rfl) [] [] [rowOk]
    [⟨"https://a.com/x", "", ""⟩] 0 2 (by decide) (by decide)

/-- Witness for C3 at concrete inputs. -/
theorem C3_frontier_contract_witness :
    enqueue ["u"] [] [] ⟨"u", "", ""⟩ = ([], []) ∧
    enqueue [] [] [] ⟨"v", "", ""⟩ = ([⟨"v", "", ""⟩], ["v"]) ∧
    ((processDepth fetch0 0 [⟨"a", "", ""⟩, ⟨"b", "", ""⟩] ⟨[], [], [], []⟩
        []).1).trace = [(0, "a"), (0, "b")] ∧
    (((crawl_bfs fetch0 [] [] [] [⟨"https://a.com/x", "", ""⟩] 0
        1).trace.map Prod.fst).Sorted (fun a b => a ≤ b)) := by
  refine ⟨?_, ?_, ?_, ?_⟩
  · exact ((C3_frontier_contract fetch0).1 ["u"] [] [] ⟨"u", "", ""⟩).1
      (Or.inl (by simp))
  · exact ((C3_frontier_contract fetch0).1 [] [] [] ⟨"v", "", ""⟩).2
      (by simp) (by simp)
  · have h := (C3_frontier_contract fetch0).2.1 0
      [⟨"a", "", ""⟩, ⟨"b", "", ""⟩] ⟨[], [], [], []⟩ []
    simpa using h
  · exact (C3_frontier_contract fetch0).2.2 [] [] []
      [⟨"https://a.com/x", "", ""⟩] 0 1

/-- Witness for C5 at concrete inputs. -/
theorem C5_retry_frame_witness :
    (retry_errors fetch0 [rowErr, rowOk]).2 =
      ([rowErr, rowOk].filter
        (fun r => r.status_code = Status.error)).map retryFetchArgs ∧
    (retry_errors fetch0 [rowErr, rowOk]).1 =
      [rowErr, rowOk].map (fun r => if r.status_code = Status.error
        then (fetch0 r.url r.depth r.from_url r.anchor_html).1 else r) ∧
    (∀ r ∈ [rowErr, rowOk], r.status_code ≠ Status.error →
      r ∈ (retry_errors fetch0 [rowErr, rowOk]).1) ∧
    (retry_errors fetch0 [rowErr, rowOk]).1.map Row.url =
      [rowErr, rowOk].map Row.url :=
  C5_retry_frame fetch0 (fun u d f a => rfl) [rowErr, rowOk]
    (by decide) (by decide)

/-! ### The crawl step crawl_single_page (C4).

The Playwright page is modelled by a record of outcomes of its calls; the
BeautifulSoup extractor, the MD5 case id and the clock by an ExtDeps record.
Calls whose failure the source swallows with only a print (network-idle wait,
error-page dom wait, text-disappearance wait, screenshot) are carried in
the record but never read, mirroring their try/except-print blocks. -/

/-- Python substring test needle in hay. -/
def containsSub (hay needle : String) : Bool :=
  (List.range (hay.toList.length + 1)).any
    (fun i => needle.toList.isPrefixOf (hay.toList.drop i))

/-- The special navigation-error class of crawl_single_page line 102:
the exception message mentions ERR_HTTP_RESPONSE_CODE_FAILURE or the
self-raised HTTP error marker. -/
def isRespCodeFailure (msg : String) : Bool :=
  containsSub msg "ERR_HTTP_RESPONSE_CODE_FAILURE" || containsSub msg "HTTP error"

/-- A Playwright response: its HTTP status and the request chain obtained
by walking redirected_from from the final request (newest first). -/
structure Resp where
  status : Nat
  chain : List String
deriving DecidableEq, Repr

/-- Outcomes of the external page calls made by crawl_single_page, in
source order: page.goto (which may raise, return None, or return a
response), the bare wait_for_load_state("domcontentloaded"), the swallowed
network-idle wait, the swallowed error-page dom wait, the swallowed
text-disappearance wait, page.content, and the swallowed screenshot. -/
structure PageEnv where
  gotoResult : Except String (Option Resp)
  domLoadedWait : Except String Unit
  networkIdleWait : Except String Unit
  errPageDomWait : Except String Unit
  waitTextResult : Except String Unit
  contentResult : Except String String
  screenshotResult : Except String Unit

/-- The external content extractor, case id hash and clock used by
crawl_single_page. -/
structure ExtDeps where
  extractLinks : String → String → List (String × String)
  extractTitle : String → String
  caseId : String → String
  now : String

/-- The inner navigation try block of crawl_single_page (lines 70-111):
ok means fall-through with the current status_code and the bound response;
error means the exception is re-raised to the outer handler, carrying the
message and the status_code current at that point. -/
def navPhase (env : PageEnv) : Except (String × Status) (Status × Option Resp) :=
  match env.gotoResult with
  | .error m =>
      if isRespCodeFailure m then .ok (Status.code 500, none)
      else .error (m, Status.error)
  | .ok none =>
      if isRespCodeFailure "No response received" then .ok (Status.code 500, none)
      else .error ("No response received", Status.error)
  | .ok (some r) =>
      if r.status ≥ 400 then
        if isRespCodeFailure ("HTTP error: status=" ++ toString r.status) then
          .ok (Status.code 500, some r)
        else .error ("HTTP error: status=" ++ toString r.status, Status.error)
      else
        match env.domLoadedWait with
        | .error m =>
            if isRespCodeFailure m then .ok (Status.code 500, some r)
            else .error (m, Status.code r.status)
        | .ok _ => .ok (Status.code r.status, some r)

/-- The error row built by the outer except handler of crawl_single_page
(lines 178-192). -/
def errorRow (ext : ExtDeps) (url : String) (depth : Nat)
    (from_url anchor_html : String) (st : Status) (m : String) : Row :=
  { url := url, redirect_chain := "", from_url := from_url,
    case_id := ext.caseId url, depth := depth, title := "",
    status_code := st, content_length := 0, link_count := 0,
    crawled_at := ext.now, error_message := m, anchor_html := anchor_html }

/-- crawl_single_page of src/crawler/crawler.py: navigate, then fetch the
page content, join the reversed request chain into the redirect string,
extract title and links, and return the success row; any exception that
escapes the nav phase or content retrieval yields the error row with the
status_code current at the raise point and an empty link map. -/
def crawl_single_page (env : PageEnv) (ext : ExtDeps) (url : String)
    (depth : Nat) (from_url anchor_html : String) :
    Row × List (String × String) :=
  match navPhase env with
  | .error ms => (errorRow ext url depth from_url anchor_html ms.2 ms.1, [])
  | .ok str =>
      match env.contentResult with
      | .error m => (errorRow ext url depth from_url anchor_html str.1 m, [])
      | .ok content =>
          let chain := match str.2 with
            | none => []
            | some r => r.chain
          let chainStr := if chain = [] then ""
            else String.intercalate " → " chain.reverse
          let link_map := ext.extractLinks content url
          ({ url := url, redirect_chain := chainStr, from_url := from_url,
             case_id := ext.caseId url, depth := depth,
             title := ext.extractTitle content, status_code := str.1,
             content_length := content.length, link_count := link_map.length,
             crawled_at := ext.now, error_message := "",
             anchor_html := anchor_html }, link_map)

lemma httpError_isRespCodeFailure (s : String) :
    isRespCodeFailure ("HTTP error: status=" ++ s) = true := by
  unfold isRespCodeFailure
  rw [Bool.or_eq_true]
  right
  unfold containsSub
  rw [List.any_eq_true]
  refine ⟨0, by simp, ?_⟩
  rw [List.drop_zero, List.isPrefixOf_iff_prefix]
  show "HTTP error".toList <+: ("HTTP error: status=" ++ s).toList
  have h : ("HTTP error: status=" ++ s).toList =
      "HTTP error: status=".toList ++ s.toList := by
    simp [String.toList, String.data_append]
  rw [h]
  exact List.IsPrefix.trans (by decide) (List.prefix_append _ _)

/-- Concrete extractor for the C4 inputs: one link, base-dependent. -/
def ext0 : ExtDeps :=
  { extractLinks := fun _ _ => [("https://a.com/y", "<a href=y>link</a>")],
    extractTitle := fun _ => "", caseId := fun u => u, now := "t" }

/-- Concrete page outcomes: navigation returns an HTTP 404 response, the
waits succeed and the page content is retrieved. -/
def env404 : PageEnv :=
  { gotoResult := Except.ok (some ⟨404, ["https://a.com/x"]⟩),
    domLoadedWait := Except.ok (), networkIdleWait := Except.ok (),
    errPageDomWait := Except.ok (), waitTextResult := Except.ok (),
    contentResult := Except.ok "<a href=y>link</a>",
    screenshotResult := Except.ok () }

/-- C4 counterexample: for a navigation that yields HTTP status 404 (a
status at least 400) and a successful content retrieval, the returned row
does NOT satisfy the claimed conjunction "statusCode ERROR-or-500 and
empty link map and non-empty errorMessage": the code records status 500
but then continues best-effort and returns a success row with an empty
error message and a non-empty link map. -/
theorem C4_claim_counterexample :
    ¬(((crawl_single_page env404 ext0 "https://a.com/x" 0 "" "").1.status_code
          = Status.error ∨
        (crawl_single_page env404 ext0 "https://a.com/x" 0 "" "").1.status_code
          = Status.code 500) ∧
       (crawl_single_page env404 ext0 "https://a.com/x" 0 "" "").2 = [] ∧
       (crawl_single_page env404 ext0 "https://a.com/x" 0 "" "").1.error_message
          ≠ "") := by
  decide

/-- C4 amended: crawl_single_page always returns a row (it is a total
function of the call outcomes).  (1) A navigation failure whose message
is outside the response-code-failure class gives the error row with
statusCode ERROR, the raised message as errorMessage, and an empty link
map; (2) so does a navigation that returns no response; (3) the
response-code-failure class (HTTP status at least 400) records statusCode
500 and continues best-effort: when content retrieval succeeds the step
returns a success row with empty errorMessage and the links extracted
from the obtained HTML; (4) the outcomes of the screenshot, the
network-idle wait, the error-page dom wait and the text-disappearance
wait never change the returned value. -/
theorem C4_error_policy (env : PageEnv) (ext : ExtDeps) (url : String)
    (depth : Nat) (f a : String) :
    (∀ m, env.gotoResult = Except.error m → isRespCodeFailure m = false →
      crawl_single_page env ext url depth f a =
        (errorRow ext url depth f a Status.error m, [])) ∧
    (env.gotoResult = Except.ok none →
      crawl_single_page env ext url depth f a =
        (errorRow ext url depth f a Status.error "No response received", [])) ∧
    (∀ r content, env.gotoResult = Except.ok (some r) → r.status ≥ 400 →
      env.contentResult = Except.ok content →
      crawl_single_page env ext url depth f a =
        ({ url := url,
           redirect_chain := if r.chain = [] then ""
             else String.intercalate " → " r.chain.reverse,
           from_url := f, case_id := ext.caseId url, depth := depth,
           title := ext.extractTitle content, status_code := Status.code 500,
           content_length := content.length,
           link_count := (ext.extractLinks content url).length,
           crawled_at := ext.now, error_message := "",
           anchor_html := a }, ext.extractLinks content url)) ∧
    (∀ s i t w, crawl_single_page
        { env with screenshotResult := s, networkIdleWait := i,
                   waitTextResult := t, errPageDomWait := w } ext url depth f a =
      crawl_single_page env ext url depth f a) := by
  refine ⟨?_, ?_, ?_, ?_⟩
  · intro m hg hm
    simp [crawl_single_page, navPhase, hg, hm]
  · intro hg
    simp [crawl_single_page, navPhase, hg, show isRespCodeFailure
      "No response received" = false from by decide]
  · intro r content hg h4 hc
    have h4b : 400 ≤ r.status := h4
    simp [crawl_single_page, navPhase, hg, hc, h4b,
      httpError_isRespCodeFailure]
  · intro s i t w
    cases env
    rfl

/-- Concrete page outcomes: navigation raises a timeout. -/
def envTimeout : PageEnv :=
  { gotoResult := Except.error "Timeout 30000ms exceeded",
    domLoadedWait := Except.ok (), networkIdleWait := Except.ok (),
    errPageDomWait := Except.ok (), waitTextResult := Except.ok (),
    contentResult := Except.ok "", screenshotResult := Except.ok () }

/-- Concrete page outcomes: goto returns None. -/
def envNone : PageEnv :=
  { gotoResult := Except.ok none,
    domLoadedWait := Except.ok (), networkIdleWait := Except.ok (),
    errPageDomWait := Except.ok (), waitTextResult := Except.ok (),
    contentResult := Except.ok "", screenshotResult := Except.ok () }

/-- Witness for C4 at concrete inputs: a timeout, a missing response, the
404 best-effort case, and insensitivity to the swallowed call outcomes. -/
theorem C4_error_policy_witness :
    crawl_single_page envTimeout ext0 "u" 0 "" "" =
      (errorRow ext0 "u" 0 "" "" Status.error "Timeout 30000ms exceeded", []) ∧
    crawl_single_page envNone ext0 "u" 0 "" "" =
      (errorRow ext0 "u" 0 "" "" Status.error "No response received", []) ∧
    crawl_single_page env404 ext0 "u" 1 "" "" =
      ({ url := "u",
         redirect_chain := String.intercalate " → "
           (["https://a.com/x"] : List String).reverse,
         from_url := "", case_id := ext0.caseId "u", depth := 1,
         title := ext0.extractTitle "<a href=y>link</a>",
         status_code := Status.code 500,
         content_length := ("<a href=y>link</a>" : String).length,
         link_count := (ext0.extractLinks "<a href=y>link</a>" "u").length,
         crawled_at := ext0.now, error_message := "", anchor_html := "" },
       ext0.extractLinks "<a href=y>link</a>" "u") ∧
    crawl_single_page
      { env404 with screenshotResult := Except.error "ss",
                    networkIdleWait := Except.error "ni",
                    waitTextResult := Except.error "wt",
                    errPageDomWait := Except.error "ep" } ext0 "u" 1 "" "" =
      crawl_single_page env404 ext0 "u" 1 "" "" :=
  ⟨(C4_error_policy envTimeout ext0 "u" 0 "" "").1 _ rfl (by decide),
   (C4_error_policy envNone ext0 "u" 0 "" "").2.1 rfl,
   by
    have h := (C4_error_policy env404 ext0 "u" 1 "" "").2.2.1
      ⟨404, ["https://a.com/x"]⟩ "<a href=y>link</a>" rfl (by decide) rfl
    simpa using h,
   (C4_error_policy env404 ext0 "u" 1 "" "").2.2.2 _ _ _ _⟩

/-! ### Resume state reconstruction: restore_state_from_csv (C6).

The CSV is modelled as it is read by csv.DictReader: every cell a string.
A missing result.csv file is the none case.  The Python guard
"depth and depth.isdigit()" is modelled by isdigitStr alone, since the
empty string is not a digit string. -/

/-- A raw result.csv row as seen by restore_state_from_csv: only the url
and depth cells are read. -/
structure RowS where
  url : String
  depth : String
deriving DecidableEq, Repr

/-- Python str.isdigit restricted to ASCII digits: non-empty and all
characters digits. -/
def isdigitStr (s : String) : Bool := !(s = "") && s.toList.all Char.isDigit

/-- Python int() on a digit string. -/
def parseNatDec (s : String) : Nat :=
  s.toList.foldl (fun a c => a * 10 + (c.toNat - 48)) 0

/-- One loop iteration of restore_state_from_csv: add a truthy url to
visited, fold a digit-string depth into the running maximum. -/
def restoreStep (acc : List String × List String × Int) (row : RowS) :
    List String × List String × Int :=
  (if row.url ≠ "" then acc.1 ++ [row.url] else acc.1,
   acc.2.1,
   if isdigitStr row.depth then max acc.2.2 (parseNatDec row.depth : Int)
   else acc.2.2)

/-- restore_state_from_csv of src/crawler/utils.py (and the identical
function in src/main.py): a missing file yields empty sets and the
sentinel -1; otherwise visited collects the truthy urls, queued stays
empty and the maximum digit-string depth is computed, starting at -1. -/
def restore_state_from_csv (file : Option (List RowS)) :
    List String × List String × Int :=
  match file with
  | none => ([], [], -1)
  | some rows => rows.foldl restoreStep ([], [], (-1 : Int))

lemma restore_foldl (rows : List RowS) : ∀ (v q : List String) (m : Int),
    (∀ r ∈ rows, r.url ≠ "") → (∀ r ∈ rows, isdigitStr r.depth = true) →
    rows.foldl restoreStep (v, q, m) =
      (v ++ rows.map RowS.url, q,
       rows.foldl (fun m r => max m (parseNatDec r.depth : Int)) m) := by
  induction rows with
  | nil => intro v q m _ _; simp
  | cons r rest ih =>
      intro v q m h1 h2
      have hu := h1 r (by simp)
      have hd := h2 r (by simp)
      simp only [List.foldl_cons, restoreStep, hu, hd, if_pos, ne_eq,
        not_false_eq_true, if_true, List.map_cons]
      rw [ih (v ++ [r.url]) q _ (fun r hr => h1 r (by simp [hr]))
        (fun r hr => h2 r (by simp [hr]))]
      simp

lemma foldl_max_le (k : Int) : ∀ (rows : List RowS) (m : Int), m ≤ k →
    (∀ r ∈ rows, (parseNatDec r.depth : Int) ≤ k) →
    rows.foldl (fun m r => max m (parseNatDec r.depth : Int)) m ≤ k := by
  intro rows
  induction rows with
  | nil => intro m hm _; simpa using hm
  | cons r rest ih =>
      intro m hm hb
      simp only [List.foldl_cons]
      exact ih _ (max_le hm (hb r (by simp))) (fun r hr => hb r (by simp [hr]))

lemma foldl_max_init_le : ∀ (rows : List RowS) (m : Int),
    m ≤ rows.foldl (fun m r => max m (parseNatDec r.depth : Int)) m := by
  intro rows
  induction rows with
  | nil => intro m; simp
  | cons r rest ih =>
      intro m
      simp only [List.foldl_cons]
      exact le_trans (le_max_left _ _) (ih _)

lemma foldl_max_ge_mem : ∀ (rows : List RowS) (m : Int) (r : RowS), r ∈ rows →
    (parseNatDec r.depth : Int) ≤
      rows.foldl (fun m r => max m (parseNatDec r.depth : Int)) m := by
  intro rows
  induction rows with
  | nil => intro m r hr; simp at hr
  | cons r0 rest ih =>
      intro m r hr
      simp only [List.foldl_cons]
      rcases List.mem_cons.1 hr with hr | hr
      · subst hr
        exact le_trans (le_max_right _ _) (foldl_max_init_le rest _)
      · exact ih _ r hr

/-- C6: over a store whose rows carry non-empty urls and digit-string
depths bounded by k and attaining k, restore_state_from_csv returns a
visited set whose members are exactly the url values of the store, an
empty queued set, and maxDepthSeen = k; a missing store file yields empty
sets and the sentinel -1 instead of an error. -/
theorem C6_restore_state (rows : List RowS) (k : Nat)
    (hurl : ∀ r ∈ rows, r.url ≠ "")
    (hdig : ∀ r ∈ rows, isdigitStr r.depth = true)
    (hbound : ∀ r ∈ rows, parseNatDec r.depth ≤ k)
    (hattain : ∃ r ∈ rows, parseNatDec r.depth = k) :
    (∀ u, u ∈ (restore_state_from_csv (some rows)).1 ↔ ∃ r ∈ rows, r.url = u) ∧
    (restore_state_from_csv (some rows)).2.2 = (k : Int) ∧
    (restore_state_from_csv (some rows)).2.1 = [] ∧
    restore_state_from_csv (none : Option (List RowS)) = ([], [], -1) := by
  have hfold := restore_foldl rows [] [] (-1) hurl hdig
  refine ⟨?_, ?_, ?_, rfl⟩
  · intro u
    show u ∈ (rows.foldl restoreStep ([], [], (-1 : Int))).1 ↔ _
    rw [hfold]
    simp only [List.nil_append]
    constructor
    · intro hu
      rcases List.mem_map.1 hu with ⟨r, hr, he⟩
      exact ⟨r, hr, he⟩
    · rintro ⟨r, hr, he⟩
      exact List.mem_map.2 ⟨r, hr, he⟩
  · show (rows.foldl restoreStep ([], [], (-1 : Int))).2.2 = (k : Int)
    rw [hfold]
    apply le_antisymm
    · exact foldl_max_le (k : Int) rows (-1) (by omega)
        (fun r hr => by exact_mod_cast hbound r hr)
    · rcases hattain with ⟨r, hr, he⟩
      have := foldl_max_ge_mem rows (-1) r hr
      rw [he] at this
      exact this
  · show (rows.foldl restoreStep ([], [], (-1 : Int))).2.1 = []
    rw [hfold]

/-- Witness for C6 at concrete inputs. -/
theorem C6_restore_state_witness :
    (∀ u, u ∈ (restore_state_from_csv
        (some [⟨"https://a.com/x", "0"⟩, ⟨"https://a.com/y", "2"⟩])).1 ↔
      ∃ r ∈ [(⟨"https://a.com/x", "0"⟩ : RowS), ⟨"https://a.com/y", "2"⟩],
        r.url = u) ∧
    (restore_state_from_csv
        (some [⟨"https://a.com/x", "0"⟩, ⟨"https://a.com/y", "2"⟩])).2.2 =
      ((2 : Nat) : Int) ∧
    (restore_state_from_csv
        (some [⟨"https://a.com/x", "0"⟩, ⟨"https://a.com/y", "2"⟩])).2.1 = [] ∧
    restore_state_from_csv (none : Option (List RowS)) = ([], [], -1) :=
  C6_restore_state [⟨"https://a.com/x", "0"⟩, ⟨"https://a.com/y", "2"⟩] 2
    (by decide) (by decide) (by decide) (by decide)

/-! ### Resume frontier reconstruction: get_urls_to_resume (C7). -/

/-- Decimal digits to Nat. -/
def digitsToNat (l : List Char) : Nat :=
  l.foldl (fun a c => a * 10 + (c.toNat - 48)) 0

/-- Python int() on a CSV cell, as used by int(row.get("depth", -1)):
some value for (optionally negated) decimal numerals, none (a ValueError)
otherwise. -/
def toIntOpt (s : String) : Option Int :=
  match s.toList with
  | [] => none
  | '-' :: rest =>
      if rest ≠ [] ∧ rest.all Char.isDigit then some (-(digitsToNat rest : Int))
      else none
  | l => if l.all Char.isDigit then some ((digitsToNat l : Nat) : Int) else none

/-- A raw result.csv row as read by get_urls_to_resume: the cells it
touches, plus redirect_chain for the spec comparison. -/
structure RowC where
  url : String
  case_id : String
  depth : String
  redirect_chain : String
deriving DecidableEq, Repr

/-- The suffix of a character list after the last occurrence of sep,
with fuel for structural recursion. -/
def lastSegmentAux (sep : List Char) : Nat → List Char → List Char → List Char
  | 0, _, cur => cur.reverse
  | _ + 1, [], cur => cur.reverse
  | fuel + 1, c :: rest, cur =>
      if sep.isPrefixOf (c :: rest) then
        lastSegmentAux sep fuel (rest.drop (sep.length - 1)) []
      else lastSegmentAux sep fuel rest (c :: cur)

/-- The final URL of a stored redirect-chain string, i.e. the segment
after the last " → " separator (the whole string when no separator). -/
def finalChainUrl (s : String) : String :=
  String.mk (lastSegmentAux " → ".toList s.toList.length s.toList [])

/-- One loop iteration of get_urls_to_resume (src/main.py lines 165-179)
for one csv row: parse the depth cell (a ValueError skips the row), keep
rows at depth - 1 with truthy url and case_id, load the saved HTML by
case_id (a missing artifact contributes nothing), extract links over it
with the row's url as base, and append (link, row url, anchor) triples. -/
def resumeStep (E : String → String → List (String × String))
    (H : String → Option String) (depth : Int)
    (acc : List (String × String × String)) (row : RowC) :
    List (String × String × String) :=
  match toIntOpt row.depth with
  | none => acc
  | some d =>
      if d = depth - 1 then
        if row.url ≠ "" ∧ row.case_id ≠ "" then
          match H row.case_id with
          | some html =>
              acc ++ (E html row.url).map (fun p => (p.1, row.url, p.2))
          | none => acc
        else acc
      else acc

/-- get_urls_to_resume of src/main.py: fold resumeStep over the stored
rows, starting from the empty list.  E is the external extract_unique_links
(html, base) and H maps a case_id to the saved HTML artifact if present. -/
def get_urls_to_resume (E : String → String → List (String × String))
    (H : String → Option String) (rows : List RowC) (depth : Int) :
    List (String × String × String) :=
  rows.foldl (resumeStep E H depth) []

/-- Modelled from the spec (spec.md section 4.5), for comparison with
get_urls_to_resume: identical except that, when the row's redirectChain
is non-empty, link extraction uses the final URL of the chain as the base
for resolving relative links instead of the originally requested URL. -/
def resumeStepSpec (E : String → String → List (String × String))
    (H : String → Option String) (depth : Int)
    (acc : List (String × String × String)) (row : RowC) :
    List (String × String × String) :=
  match toIntOpt row.depth with
  | none => acc
  | some d =>
      if d = depth - 1 then
        if row.url ≠ "" ∧ row.case_id ≠ "" then
          match H row.case_id with
          | some html =>
              let base := if row.redirect_chain ≠ ""
                then finalChainUrl row.redirect_chain else row.url
              acc ++ (E html base).map (fun p => (p.1, row.url, p.2))
          | none => acc
        else acc
      else acc

/-- Modelled from the spec: the spec variant of get_urls_to_resume. -/
def get_urls_to_resume_spec (E : String → String → List (String × String))
    (H : String → Option String) (rows : List RowC) (depth : Int) :
    List (String × String × String) :=
  rows.foldl (resumeStepSpec E H depth) []

/-- A concrete extractor whose output records the base it was given. -/
def linkE : String → String → List (String × String) :=
  fun _ base => [(base, "<a>x</a>")]

/-- A concrete artifact store that always has the saved HTML. -/
def htmlH : String → Option String := fun _ => some "<h></h>"

/-- A concrete stored row whose redirect chain ends on another authority
than the originally requested URL. -/
def rowRedir : RowC :=
  { url := "https://a.com/x", case_id := "c1", depth := "0",
    redirect_chain := "https://a.com/x → https://b.com/y" }

/-- C7 counterexample: for a row with a non-empty redirect chain, the
code resolves links against the row's original url, not the final URL of
the chain: get_urls_to_resume differs from the spec-modelled variant at
this input. -/
theorem C7_claim_counterexample :
    get_urls_to_resume linkE htmlH [rowRedir] 1 =
      [("https://a.com/x", "https://a.com/x", "<a>x</a>")] ∧
    get_urls_to_resume_spec linkE htmlH [rowRedir] 1 =
      [("https://b.com/y", "https://a.com/x", "<a>x</a>")] ∧
    rowRedir.redirect_chain ≠ "" ∧
    get_urls_to_resume linkE htmlH [rowRedir] 1 ≠
      get_urls_to_resume_spec linkE htmlH [rowRedir] 1 := by
  decide

lemma resumeStep_none (E : String → String → List (String × String))
    (H : String → Option String) (depth : Int)
    (acc : List (String × String × String)) (row : RowC)
    (hn : H row.case_id = none) : resumeStep E H depth acc row = acc := by
  unfold resumeStep
  cases toIntOpt row.depth with
  | none => rfl
  | some d =>
      simp only [hn]
      split <;> [skip; rfl]
      split <;> rfl

/-- C7 amended: get_urls_to_resume resolves links against the row's
originally requested url (never the redirect chain), and a row whose
saved HTML artifact is missing silently contributes no links: a store all
of whose artifacts are missing yields an empty frontier, and a
contributing row yields exactly the extractor's output over (saved html,
row url), tagged with the row's url as fromUrl. -/
theorem C7_resume_base (E : String → String → List (String × String))
    (H : String → Option String) :
    (∀ (rows : List RowC) (d : Int), (∀ row ∈ rows, H row.case_id = none) →
      get_urls_to_resume E H rows d = []) ∧
    (∀ (row : RowC) (html : String) (d : Int),
      toIntOpt row.depth = some (d - 1) → row.url ≠ "" → row.case_id ≠ "" →
      H row.case_id = some html →
      get_urls_to_resume E H [row] d =
        (E html row.url).map (fun p => (p.1, row.url, p.2))) := by
  constructor
  · intro rows d hnone
    have hgen : ∀ (l : List RowC) (acc : List (String × String × String)),
        (∀ row ∈ l, H row.case_id = none) →
        l.foldl (resumeStep E H d) acc = acc := by
      intro l
      induction l with
      | nil => intro acc _; rfl
      | cons row rest ih =>
          intro acc hl
          simp only [List.foldl_cons]
          rw [resumeStep_none E H d acc row (hl row (by simp))]
          exact ih acc (fun r hr => hl r (by simp [hr]))
    exact hgen rows [] hnone
  · intro row html d h1 h2 h3 h4
    simp [get_urls_to_resume, resumeStep, h1, h2, h3, h4]

/-- Witness for C7 at concrete inputs. -/
theorem C7_resume_base_witness :
    get_urls_to_resume linkE (fun _ => none) [rowRedir] 1 = [] ∧
    get_urls_to_resume linkE htmlH [rowRedir] 1 =
      (linkE "<h></h>" rowRedir.url).map (fun p => (p.1, rowRedir.url, p.2)) :=
  ⟨(C7_resume_base linkE (fun _ => none)).1 [rowRedir] 1 (fun _ _ => rfl),
   (C7_resume_base linkE htmlH).2 rowRedir "<h></h>" 1 (by decide) (by decide)
     (by decide) rfl⟩

/-! ### Domain replacement: src/crawler/domain/replacer.py (C8, C9, C10).

urllib.parse.urlparse and urlunparse are modelled for the
scheme://netloc/rest shape of URL: the netloc is the text between "://"
and the next '/', '?' or '#'.  The additional navigation performed by
handle_redirects is modelled by an AddNavEnv of call outcomes, and the
crawl step of the replacement crawl by a step function argument. -/

/-- Split a character list at the first occurrence of sep, with fuel for
structural recursion: some (before, after) or none when sep is absent. -/
def breakOnAux (sep : List Char) :
    Nat → List Char → List Char → Option (List Char × List Char)
  | 0, _, _ => none
  | _ + 1, [], _ => none
  | fuel + 1, c :: rest, pre =>
      if sep.isPrefixOf (c :: rest) then
        some (pre.reverse, (c :: rest).drop sep.length)
      else breakOnAux sep fuel rest (c :: pre)

/-- The parse of a URL: scheme, authority (netloc) and the remainder. -/
structure UrlParts where
  scheme : String
  netloc : String
  rest : String
deriving DecidableEq, Repr

/-- Model of urllib.parse.urlparse for scheme://netloc/rest URLs: the
netloc is the text between "://" and the next '/', '?' or '#'; a string
without "://" parses with empty scheme and netloc. -/
def urlparse (u : String) : UrlParts :=
  match breakOnAux "://".toList u.toList.length u.toList [] with
  | none => ⟨"", "", u⟩
  | some sr =>
      let netloc := sr.2.takeWhile (fun c => !(c = '/' || c = '?' || c = '#'))
      ⟨String.mk sr.1, String.mk netloc,
       String.mk (sr.2.drop netloc.length)⟩

/-- Model of urllib.parse.urlunparse on such parses. -/
def urlunparse (p : UrlParts) : String :=
  if p.scheme = "" then p.rest else p.scheme ++ "://" ++ p.netloc ++ p.rest

/-- is_domain_match of replacer.py: whole-string equality of the two
authorities, no substring matching. -/
def is_domain_match (d1 d2 : String) : Bool := d1 = d2

/-- replace_domain of replacer.py: if the url's netloc equals the
original-domain key of some rule (first match wins), rebuild the url with
that rule's replacement netloc; otherwise return the url unchanged. -/
def replace_domain (rules : List (String × String)) (url : String) : String :=
  match rules.find? (fun dr => (urlparse url).netloc = dr.1) with
  | some dr => urlunparse { urlparse url with netloc := dr.2 }
  | none => url

/-- check_redirect_chain_domain of replacer.py: given the chronological
redirect chain and the original (pre-replacement) url, detect a bounce:
the rule whose key equals the original authority is looked up (a falsy
key aborts), and when the final chain URL's authority equals that key and
re-replacement changes the final URL, return (the re-replaced URL, true);
otherwise (none, false). -/
def check_redirect_chain_domain (rules : List (String × String))
    (redirect_chain : List String) (original_url : String) :
    Option String × Bool :=
  match redirect_chain.getLast? with
  | none => (none, false)
  | some final_url =>
      let original_netloc := (urlparse original_url).netloc
      match rules.find? (fun dr => is_domain_match dr.1 original_netloc) with
      | none => (none, false)
      | some dr =>
          if dr.1 = "" then (none, false)
          else
            if is_domain_match (urlparse final_url).netloc dr.1 then
              let new_url := replace_domain rules final_url
              if new_url ≠ final_url then (some new_url, true)
              else (none, false)
            else (none, false)

/-- The normal redirect-hop connector of replacer.py. -/
def NORMAL_ARROW : String := "→"

/-- The bounce-leg connector of replacer.py. -/
def REPLACEMENT_ARROW : String := "⇒"

/-- Outcomes of the additional navigation of handle_redirects: the status
of the additional page.goto (raised, None, or a response), the page
content after that navigation, and the screenshot outcome. -/
structure AddNavEnv where
  gotoRes : Except String (Option Nat)
  content2 : String
  shot : Except String Unit

/-- handle_redirects of replacer.py, taking the request chain as built by
crawl_single_url (newest first) and the page content at entry; returns
the redirect-chain string, the resulting content, the resulting status
code (default 200), and the list of additionally navigated URLs.  On a
detected bounce the extra leg is appended with the REPLACEMENT_ARROW
connector and one additional navigation is attempted; its content is
taken on success (status below 400), and its status is recorded unless
the screenshot then raises (the status update follows the screenshot in
the source's try block). -/
def handle_redirects (rules : List (String × String)) (env : AddNavEnv)
    (redirect_chain : List String) (url : String) (content0 : String) :
    String × String × Nat × List String :=
  if redirect_chain = [] then ("", content0, 200, [])
  else
    let chain := redirect_chain.reverse
    let cr := check_redirect_chain_domain rules chain url
    let s := String.intercalate " " (chain.map (fun u => NORMAL_ARROW ++ " " ++ u))
    match cr with
    | (some au, true) =>
        if au = "" then (s, content0, 200, [])
        else
          let s2 := s ++ " " ++ REPLACEMENT_ARROW ++ " " ++ au
          match env.gotoRes with
          | .error _ => (s2, content0, 200, [au])
          | .ok none => (s2, content0, 200, [au])
          | .ok (some st) =>
              if st < 400 then
                match env.shot with
                | .error _ => (s2, env.content2, 200, [au])
                | .ok _ => (s2, env.content2, st, [au])
              else (s2, content0, 200, [au])
    | _ => (s, content0, 200, [])

/-- The eight R1 columns appended by the replacement crawl
(R1_CSV_FIELDS of replacer.py). -/
structure R1Data where
  url_r1 : String
  redirect_chain_r1 : String
  title_r1 : String
  status_code_r1 : String
  content_length_r1 : String
  link_count_r1 : String
  crawled_at_r1 : String
  error_message_r1 : String
deriving DecidableEq, Repr

/-- A result.csv row after ensure_r1_csv_fields: the twelve original
columns (as CSV text) plus the R1 columns. -/
structure RawRow where
  url : String
  redirect_chain : String
  from_url : String
  case_id : String
  depth : String
  title : String
  status_code : String
  content_length : String
  link_count : String
  crawled_at : String
  error_message : String
  anchor_html : String
  r1 : R1Data
deriving DecidableEq, Repr

/-- update_csv_row of replacer.py: read all rows, update the first row
whose url matches with the R1 data (row.update over the eight R1 keys),
and write all rows back. -/
def update_csv_row : List RawRow → String → R1Data → List RawRow
  | [], _, _ => []
  | r :: rest, u, d =>
      if r.url = u then { r with r1 := d } :: rest
      else r :: update_csv_row rest u d

/-- crawl_with_domain_replacement of replacer.py: fold over the stored
rows (the snapshot read after ensure_r1_csv_fields); a falsy url or a url
left unchanged by replace_domain is skipped; otherwise the replacement
crawl step runs against the replaced url (here an abstract step from the
row and the new url to the R1 data, covering both the crawl result and
the error path of the surrounding try block) and the R1 columns are
merged into the store by update_csv_row.  Returns the final store and the
trace of (original url, replaced url) pairs crawled. -/
def cwdrStep (rules : List (String × String))
    (step : RawRow → String → R1Data)
    (acc : List RawRow × List (String × String)) (row : RawRow) :
    List RawRow × List (String × String) :=
  if row.url = "" then acc
  else
    if replace_domain rules row.url = row.url then acc
    else (update_csv_row acc.1 row.url (step row (replace_domain rules row.url)),
          acc.2 ++ [(row.url, replace_domain rules row.url)])

def crawl_with_domain_replacement (rules : List (String × String))
    (step : RawRow → String → R1Data) (rows : List RawRow) :
    List RawRow × List (String × String) :=
  rows.foldl (cwdrStep rules step) (rows, [])

/-! ### C10: update_csv_row frame properties. -/

lemma update_csv_row_length (s : List RawRow) (u : String) (d : R1Data) :
    (update_csv_row s u d).length = s.length := by
  induction s with
  | nil => rfl
  | cons r rest ih =>
      by_cases h : r.url = u
      · simp [update_csv_row, h]
      · simp [update_csv_row, h, ih]

lemma update_csv_row_get_ne : ∀ (s : List RawRow) (u : String) (d : R1Data)
    (i : Nat) (e : RawRow), s.get? i = some e → e.url ≠ u →
    (update_csv_row s u d).get? i = some e := by
  intro s u d
  induction s with
  | nil => intro i e h _; simp at h
  | cons r rest ih =>
      intro i e h hne
      by_cases hr : r.url = u
      · cases i with
        | zero =>
            simp at h
            rw [h] at hr
            exact absurd hr hne
        | succ i =>
            simp only [List.get?_cons_succ] at h
            simpa [update_csv_row, hr] using h
      · cases i with
        | zero =>
            simp at h
            subst h
            simp [update_csv_row, hr]
        | succ i =>
            simp only [List.get?_cons_succ] at h
            simpa [update_csv_row, hr] using ih i e h hne

lemma update_csv_row_get_first : ∀ (s : List RawRow) (u : String)
    (d : R1Data) (i : Nat) (e : RawRow), s.get? i = some e → e.url = u →
    (∀ j, j < i → ∀ ej, s.get? j = some ej → ej.url ≠ u) →
    (update_csv_row s u d).get? i = some { e with r1 := d } := by
  intro s u d
  induction s with
  | nil => intro i e h _ _; simp at h
  | cons r rest ih =>
      intro i e h he hj
      cases i with
      | zero =>
          simp at h
          subst h
          simp [update_csv_row, he]
      | succ i =>
          have hr : r.url ≠ u := hj 0 (Nat.succ_pos i) r (by simp)
          simp only [List.get?_cons_succ] at h
          have := ih i e h he (fun j hji ej hje =>
            hj (j + 1) (Nat.succ_lt_succ hji) ej (by simpa using hje))
          simpa [update_csv_row, hr] using this

lemma update_csv_row_orig : ∀ (s : List RawRow) (u : String) (d : R1Data)
    (i : Nat) (e e2 : RawRow), s.get? i = some e →
    (update_csv_row s u d).get? i = some e2 → { e2 with r1 := e.r1 } = e := by
  intro s u d
  induction s with
  | nil => intro i e e2 h _; simp at h
  | cons r rest ih =>
      intro i e e2 h h2
      simp only [update_csv_row] at h2
      by_cases hr : r.url = u
      · rw [if_pos hr] at h2
        cases i with
        | zero =>
            simp only [List.get?_cons_zero] at h h2
            rw [← Option.some.inj h, ← Option.some.inj h2]
        | succ i =>
            simp only [List.get?_cons_succ] at h h2
            rw [h] at h2
            rw [← Option.some.inj h2]
      · rw [if_neg hr] at h2
        cases i with
        | zero =>
            simp only [List.get?_cons_zero] at h h2
            rw [← Option.some.inj h, ← Option.some.inj h2]
        | succ i =>
            simp only [List.get?_cons_succ] at h h2
            exact ih i e e2 h h2

/-- C10: persisting R1 data with update_csv_row adds no row (the length
is unchanged), changes at most the r1 columns of rows (restoring the
original r1 restores the original row byte for byte), leaves every row
whose url differs from the key completely unchanged, and rewrites the
first row whose url equals the key to the same row with exactly the R1
columns replaced. -/
theorem C10_update_frame (s : List RawRow) (u : String) (d : R1Data) :
    (update_csv_row s u d).length = s.length ∧
    (∀ i e e2, s.get? i = some e → (update_csv_row s u d).get? i = some e2 →
      { e2 with r1 := e.r1 } = e) ∧
    (∀ i e, s.get? i = some e → e.url ≠ u →
      (update_csv_row s u d).get? i = some e) ∧
    (∀ i e, s.get? i = some e → e.url = u →
      (∀ j, j < i → ∀ ej, s.get? j = some ej → ej.url ≠ u) →
      (update_csv_row s u d).get? i = some { e with r1 := d }) :=
  ⟨update_csv_row_length s u d,
   fun i e e2 h h2 => update_csv_row_orig s u d i e e2 h h2,
   fun i e h hne => update_csv_row_get_ne s u d i e h hne,
   fun i e h he hj => update_csv_row_get_first s u d i e h he hj⟩

/-- Empty R1 columns, as after ensure_r1_csv_fields. -/
def r1Empty : R1Data :=
  { url_r1 := "", redirect_chain_r1 := "", title_r1 := "",
    status_code_r1 := "", content_length_r1 := "", link_count_r1 := "",
    crawled_at_r1 := "", error_message_r1 := "" }

/-- Concrete R1 data produced by a replacement crawl. -/
def r1New : R1Data :=
  { url_r1 := "https://new.com/p", redirect_chain_r1 := "→ https://new.com/p",
    title_r1 := "T", status_code_r1 := "200", content_length_r1 := "10",
    link_count_r1 := "1", crawled_at_r1 := "t", error_message_r1 := "" }

/-- A concrete stored row on another url. -/
def rr1 : RawRow :=
  { url := "https://keep.com/a", redirect_chain := "", from_url := "",
    case_id := "k1", depth := "0", title := "A", status_code := "200",
    content_length := "3", link_count := "0", crawled_at := "t",
    error_message := "", anchor_html := "", r1 := r1Empty }

/-- A concrete stored row targeted by the replacement crawl. -/
def rr2 : RawRow :=
  { url := "https://old.com/p", redirect_chain := "", from_url := "",
    case_id := "k2", depth := "1", title := "B", status_code := "200",
    content_length := "4", link_count := "2", crawled_at := "t",
    error_message := "", anchor_html := "", r1 := r1Empty }

/-- Witness for C10 at concrete inputs. -/
theorem C10_update_frame_witness :
    (update_csv_row [rr1, rr2] "https://old.com/p" r1New).length =
      ([rr1, rr2] : List RawRow).length ∧
    (update_csv_row [rr1, rr2] "https://old.com/p" r1New).get? 0 = some rr1 ∧
    (update_csv_row [rr1, rr2] "https://old.com/p" r1New).get? 1 =
      some { rr2 with r1 := r1New } ∧
    ({ ({ rr2 with r1 := r1New } : RawRow) with r1 := rr2.r1 } = rr2) := by
  have h := C10_update_frame [rr1, rr2] "https://old.com/p" r1New
  have h1 : (update_csv_row [rr1, rr2] "https://old.com/p" r1New).get? 1 =
      some { rr2 with r1 := r1New } :=
    h.2.2.2 1 rr2 rfl rfl (by
      intro j hj ej hje
      have hj0 : j = 0 := by omega
      subst hj0
      simp at hje
      subst hje
      decide)
  exact ⟨h.1, h.2.2.1 0 rr1 rfl (by decide), h1,
    h.2.1 1 rr2 { rr2 with r1 := r1New } rfl h1⟩

/-! ### C9: exact-authority replacement and skipping. -/

lemma cwdr_trace (rules : List (String × String))
    (step : RawRow → String → R1Data) :
    ∀ (l : List RawRow) (s : List RawRow) (t : List (String × String)),
    (l.foldl (cwdrStep rules step) (s, t)).2 =
      t ++ l.filterMap (fun row =>
        if row.url ≠ "" ∧ replace_domain rules row.url ≠ row.url
        then some (row.url, replace_domain rules row.url) else none) := by
  intro l
  induction l with
  | nil => intro s t; simp
  | cons row rest ih =>
      intro s t
      simp only [List.foldl_cons, List.filterMap_cons]
      by_cases h1 : row.url = ""
      · simp [cwdrStep, h1, ih]
      · by_cases h2 : replace_domain rules row.url = row.url
        · simp [cwdrStep, h1, h2, ih]
        · simp only [cwdrStep, if_neg h1, if_neg h2, ih]
          simp [h1, h2]

lemma cwdr_store_frame (rules : List (String × String))
    (step : RawRow → String → R1Data) :
    ∀ (l s : List RawRow) (t : List (String × String)) (i : Nat) (e : RawRow),
    s.get? i = some e → replace_domain rules e.url = e.url →
    ((l.foldl (cwdrStep rules step) (s, t)).1).get? i = some e := by
  intro l
  induction l with
  | nil => intro s t i e h _; simpa using h
  | cons row rest ih =>
      intro s t i e h he
      simp only [List.foldl_cons]
      by_cases h1 : row.url = ""
      · rw [show cwdrStep rules step (s, t) row = (s, t) from by
          simp [cwdrStep, h1]]
        exact ih s t i e h he
      · by_cases h2 : replace_domain rules row.url = row.url
        · rw [show cwdrStep rules step (s, t) row = (s, t) from by
            simp [cwdrStep, h1, h2]]
          exact ih s t i e h he
        · rw [show cwdrStep rules step (s, t) row =
              (update_csv_row s row.url (step row (replace_domain rules row.url)),
               t ++ [(row.url, replace_domain rules row.url)]) from by
            simp [cwdrStep, h1, h2]]
          apply ih
          · apply update_csv_row_get_ne _ _ _ _ _ h
            intro hequ
            rw [hequ] at he
            exact h2 he
          · exact he

/-- C9: replace_domain rewrites a url only on whole-string equality of
its authority with a rule key: if no rule key equals the authority the
url is returned unchanged, and on the first matching rule the authority
alone is replaced by the rule's value.  In the domain-replacement crawl,
the crawled (original, replaced) pairs are exactly the rows with a truthy
url changed by replace_domain — a row matched by no rule is never fetched
— and the store entry of any row whose url replace_domain leaves
unchanged is untouched (no fetch, no R1 write). -/
theorem C9_exact_authority (rules : List (String × String))
    (step : RawRow → String → R1Data) :
    (∀ u, (∀ dr ∈ rules, dr.1 ≠ (urlparse u).netloc) →
      replace_domain rules u = u) ∧
    (∀ u dr, rules.find? (fun x => (urlparse u).netloc = x.1) = some dr →
      replace_domain rules u = urlunparse { urlparse u with netloc := dr.2 }) ∧
    (∀ rows, (crawl_with_domain_replacement rules step rows).2 =
      rows.filterMap (fun row =>
        if row.url ≠ "" ∧ replace_domain rules row.url ≠ row.url
        then some (row.url, replace_domain rules row.url) else none)) ∧
    (∀ rows i e, rows.get? i = some e → replace_domain rules e.url = e.url →
      ((crawl_with_domain_replacement rules step rows).1).get? i = some e) := by
  refine ⟨?_, ?_, ?_, ?_⟩
  · intro u hnone
    have hn : rules.find? (fun dr => (urlparse u).netloc = dr.1) = none :=
      List.find?_eq_none.2 (fun x hx => by
        simp only [decide_eq_true_eq]
        exact fun he => hnone x hx he.symm)
    simp [replace_domain, hn]
  · intro u dr hf
    simp [replace_domain, hf]
  · intro rows
    exact cwdr_trace rules step rows rows []
  · intro rows i e h he
    exact cwdr_store_frame rules step rows rows [] i e h he

/-- The concrete replacement rules of the witnesses. -/
def rules0 : List (String × String) := [("old.com", "new.com")]

/-- A concrete replacement crawl step result. -/
def step0 : RawRow → String → R1Data := fun _ _ => r1New

/-- Witness for C9 at concrete inputs. -/
theorem C9_exact_authority_witness :
    replace_domain rules0 "https://other.com/a" = "https://other.com/a" ∧
    replace_domain rules0 "https://old.com/p" =
      urlunparse { urlparse "https://old.com/p" with netloc := "new.com" } ∧
    (crawl_with_domain_replacement rules0 step0 [rr1, rr2]).2 =
      [rr1, rr2].filterMap (fun row =>
        if row.url ≠ "" ∧ replace_domain rules0 row.url ≠ row.url
        then some (row.url, replace_domain rules0 row.url) else none) ∧
    ((crawl_with_domain_replacement rules0 step0 [rr1, rr2]).1).get? 0 =
      some rr1 :=
  ⟨(C9_exact_authority rules0 step0).1 "https://other.com/a" (by decide),
   (C9_exact_authority rules0 step0).2.1 "https://old.com/p"
     ("old.com", "new.com") (by decide),
   (C9_exact_authority rules0 step0).2.2.1 [rr1, rr2],
   (C9_exact_authority rules0 step0).2.2.2 [rr1, rr2] 0 rr1 rfl (by decide)⟩

/-! ### C8: redirect-loop (bounce) detection. -/

/-- C8: take the request chain of the replaced fetch (newest first, so
its head f is the final URL of the chain).  If the rule table maps the
original url's authority (to a non-empty key), the final URL's authority
equals that original authority, and re-replacing the final URL changes it
to a non-empty new URL, then — when the additional navigation returns a
status below 400 and the screenshot succeeds — handle_redirects performs
exactly one additional navigation, to the re-replaced URL, and returns
the second attempt's content and status; the recorded chain string is the
normal-connector hops followed by one REPLACEMENT_ARROW leg.  If the
final URL's authority differs from the original url's authority, no
additional navigation occurs.  The two connectors are distinct. -/
theorem C8_bounce_redirect (rules : List (String × String)) (env : AddNavEnv)
    (url content0 : String) :
    (∀ (f : String) (rest : List String) (dr : String × String) (st : Nat),
      rules.find? (fun x => is_domain_match x.1 ((urlparse url).netloc)) =
        some dr →
      dr.1 ≠ "" →
      (urlparse f).netloc = dr.1 →
      replace_domain rules f ≠ f →
      replace_domain rules f ≠ "" →
      env.gotoRes = Except.ok (some st) → st < 400 →
      env.shot = Except.ok () →
      handle_redirects rules env (f :: rest) url content0 =
        (String.intercalate " "
            (((f :: rest).reverse).map (fun u => NORMAL_ARROW ++ " " ++ u)) ++
          " " ++ REPLACEMENT_ARROW ++ " " ++ replace_domain rules f,
         env.content2, st, [replace_domain rules f])) ∧
    (∀ (f2 : String) (rest2 : List String) (c2 : String),
      (urlparse f2).netloc ≠ (urlparse url).netloc →
      (handle_redirects rules env (f2 :: rest2) url c2).2.2.2 = []) ∧
    NORMAL_ARROW ≠ REPLACEMENT_ARROW := by
  refine ⟨?_, ?_, by decide⟩
  · intro f rest dr st hfind hd hfm hrd hau hgoto hst hshot
    have hchain : ¬(f :: rest = ([] : List String)) := by simp
    have hlast : (rest.reverse ++ [f]).getLast? = some f := by simp
    have hcheck : check_redirect_chain_domain rules (rest.reverse ++ [f]) url =
        (some (replace_domain rules f), true) := by
      simp only [check_redirect_chain_domain, hlast]
      rw [hfind]
      simp [hd, is_domain_match, hfm, hrd]
    simp [handle_redirects, hchain, hcheck, hau, hgoto, hst, hshot]
  · intro f2 rest2 c2 hne
    have hchain : ¬(f2 :: rest2 = ([] : List String)) := by simp
    have hlast : (rest2.reverse ++ [f2]).getLast? = some f2 := by simp
    have hcheck : check_redirect_chain_domain rules (rest2.reverse ++ [f2])
        url = (none, false) := by
      simp only [check_redirect_chain_domain, hlast]
      cases hf : rules.find? (fun x => is_domain_match x.1
          ((urlparse url).netloc)) with
      | none => rfl
      | some dr =>
          have hpred := List.find?_some hf
          have hdr : dr.1 = (urlparse url).netloc := by
            simpa [is_domain_match] using hpred
          by_cases hde : dr.1 = ""
          · simp [hde]
          · have hfm2 : is_domain_match ((urlparse f2).netloc) dr.1 = false := by
              simp only [is_domain_match, decide_eq_false_iff_not]
              rw [hdr]
              exact hne
            simp [hde, hfm2]
    simp [handle_redirects, hchain, hcheck]

/-- Outcomes of the additional navigation for the C8 witness. -/
def env8 : AddNavEnv :=
  { gotoRes := Except.ok (some 200), content2 := "bounced-content",
    shot := Except.ok () }

/-- Witness for C8 at concrete inputs: the replaced fetch of
https://old.com/p landed on https://old.com/p2 (chain newest first), the
bounce is detected and one extra navigation to the re-replaced URL is
performed, and a chain ending on another authority triggers none. -/
theorem C8_bounce_redirect_witness :
    handle_redirects rules0 env8 ["https://old.com/p2", "https://new.com/p"]
        "https://old.com/p" "c0" =
      (String.intercalate " "
          ((["https://old.com/p2", "https://new.com/p"].reverse).map
            (fun u => NORMAL_ARROW ++ " " ++ u)) ++
        " " ++ REPLACEMENT_ARROW ++ " " ++
        replace_domain rules0 "https://old.com/p2",
       env8.content2, 200, [replace_domain rules0 "https://old.com/p2"]) ∧
    (handle_redirects rules0 env8 ["https://third.com/z"] "https://old.com/p"
        "c0").2.2.2 = [] ∧
    NORMAL_ARROW ≠ REPLACEMENT_ARROW :=
  ⟨(C8_bounce_redirect rules0 env8 "https://old.com/p" "c0").1
      "https://old.com/p2" ["https://new.com/p"] ("old.com", "new.com") 200
      (by decide) (by decide) (by decide) (by decide) (by decide) rfl
      (by decide) rfl,
   (C8_bounce_redirect rules0 env8 "https://old.com/p" "c0").2.1
      "https://third.com/z" [] "c0" (by decide),
   (C8_bounce_redirect rules0 env8 "https://old.com/p" "c0").2.2⟩
